import Mathlib

/-!
Verification of the texture-atlas build/load/save pipeline from
`bevy_mod_atlas_loader` (`src/loader.rs`), shallowly embedded in Lean 4.

The embedding follows the source:
* `TextureAtlasLoader.load`  — the Direct-Load pipeline (loader.rs, `impl AssetLoader for TextureAtlasLoader`),
* `TextureAtlasBuildLoader.load` — the Build pipeline (`impl AssetLoader for TextureAtlasBuildLoader`),
* `TextureAtlasSaver.save` — the Persist pipeline (`impl AssetSaver for TextureAtlasSaver`),
* `LoaderSettings.fromLayout` — `impl From<TextureAtlasLayout> for LoaderSettings`.

Code of the crate that is not in the provided sources (`TextureAtlasPaths`,
`TextureAtlasAsset` from the crate root) and external collaborators that the
spec treats as part of the pipeline's contract (bevy's `TextureAtlasBuilder`,
`ImageFormat`, the image codec) are modelled from the spec; each such
definition carries a doc comment saying so.

The external asynchronous asset loader is modelled as an explicit environment
function supplied to the pipelines; IO failure and nested-load failure
surface as `Except` errors, matching the `Result`-returning Rust code.
-/

/-- Pixel-space 2-vector (bevy's `UVec2`), components are unsigned. -/
structure UVec2 where
  x : Nat
  y : Nat
deriving DecidableEq, Repr

/-- Axis-aligned pixel rectangle (bevy's `URect`): `min` and `max` corner. -/
structure URect where
  min : UVec2
  max : UVec2
deriving DecidableEq, Repr

/-- Two rects overlap when their interiors intersect in both axes. -/
def URect.overlaps (a b : URect) : Bool :=
  decide (a.min.x < b.max.x) && decide (b.min.x < a.max.x) &&
  decide (a.min.y < b.max.y) && decide (b.min.y < a.max.y)

/-- A rect is contained in a canvas of size `s` when it is well formed
(`min ≤ max` componentwise) and its `max` corner is inside the canvas. -/
def URect.containedIn (r : URect) (s : UVec2) : Bool :=
  decide (r.min.x ≤ r.max.x) && decide (r.min.y ≤ r.max.y) &&
  decide (r.max.x ≤ s.x) && decide (r.max.y ≤ s.y)

/-- Modelled from the spec: bevy's `ImageFormat` is not part of the provided
sources; the spec (§6) describes it as a closed set of named encodings.  A
representative closed set suffices for the pipeline's behaviour. -/
inductive ImageFormat where
  | png
  | jpeg
  | bmp
deriving DecidableEq, Repr

/-- Modelled from the spec: `ImageFormat::to_file_extensions` returns the
file extensions associated with a format (the code only uses element `[0]`). -/
def ImageFormat.toFileExtensions : ImageFormat → List String
  | .png => ["png"]
  | .jpeg => ["jpg", "jpeg"]
  | .bmp => ["bmp"]

/-- bevy's `ImageFormatSetting`: how the nested image load determines the
format — extension-based auto-detection (the default) or an explicit format. -/
inductive ImageFormatSetting where
  | fromExtension
  | format (f : ImageFormat)
deriving DecidableEq, Repr

/-- A decoded image; only its pixel dimensions and raw data matter to the
pipeline (decoding/encoding is an external codec collaborator). -/
structure Image where
  size : UVec2
  data : List Nat
deriving DecidableEq, Repr

/-- bevy's `TextureAtlasLayout`: overall canvas size plus the ordered
placement rectangles. -/
structure TextureAtlasLayout where
  size : UVec2
  textures : List URect
deriving DecidableEq, Repr

/-- A source identifier (bevy's `AssetPath` used as an opaque key). -/
abbrev AssetPath := String

/-- Modelled from the spec: `TextureAtlasPaths` (the Path Index) is defined in
the crate root, outside the provided sources.  Per the spec (§2, §3) it is an
ordered, append-only mapping from placement position to an optional source
identifier; `loader.rs` accesses its `path_indices` sequence and appends via
`add`. -/
structure TextureAtlasPaths where
  path_indices : List (Option AssetPath)
deriving DecidableEq, Repr

instance : Inhabited TextureAtlasPaths := ⟨⟨[]⟩⟩

/-- Modelled from the spec: `TextureAtlasPaths::default()` is the empty index. -/
def TextureAtlasPaths.mkDefault : TextureAtlasPaths := ⟨[]⟩

/-- Modelled from the spec: `TextureAtlasPaths::add` appends one optional
source identifier at the next position. -/
def TextureAtlasPaths.add (p : TextureAtlasPaths) (x : Option AssetPath) : TextureAtlasPaths :=
  ⟨p.path_indices ++ [x]⟩

/-- Modelled from the spec: `TextureAtlasAsset` is defined in the crate root,
outside the provided sources.  Per the spec (§3) it owns one Atlas Layout, one
packed pixel buffer and one Path Index; the handles to the labeled
sub-assets are represented by the values themselves. -/
structure TextureAtlasAsset where
  layout : TextureAtlasLayout
  texture : Image
  paths : TextureAtlasPaths
deriving DecidableEq, Repr

/-- `LoaderSettings` from loader.rs: optional image format plus the ordered
list of `(optional asset path, rect)` entries. -/
structure LoaderSettings where
  format : Option ImageFormat
  textures : List (Option AssetPath × URect)
deriving DecidableEq, Repr

/-- `LoaderSettings::with_format`. -/
def LoaderSettings.with_format (s : LoaderSettings) (format : ImageFormat) : LoaderSettings :=
  { format := some format, textures := s.textures }

/-- `impl From<TextureAtlasLayout> for LoaderSettings`: `format` is `None` and
every rect is paired with `None`. -/
def LoaderSettings.fromLayout (layout : TextureAtlasLayout) : LoaderSettings :=
  { format := none
    textures := layout.textures.map fun rect => (none, rect) }

/-- `LoaderError` from loader.rs. -/
inductive LoaderError where
  | io
  | loadDirect
deriving DecidableEq, Repr

/-- An asset path split into stem and extension, so that Rust's
`Path::with_extension` (substitute the file extension) is expressible. -/
structure AtlasPath where
  stem : String
  ext : String
deriving DecidableEq, Repr

/-- Rust's `PathBuf::with_extension`: replace the file extension. -/
def AtlasPath.with_extension (p : AtlasPath) (e : String) : AtlasPath :=
  ⟨p.stem, e⟩

/-- The internal (nested raw-image) asset path computed by
`TextureAtlasLoader::load`: the atlas path with its extension replaced by
`settings.format.map_or("bin", |format| format.to_file_extensions()[0])`. -/
def internalAssetPath (assetPath : AtlasPath) (format : Option ImageFormat) : AtlasPath :=
  assetPath.with_extension
    (match format with
     | none => "bin"
     | some f => f.toFileExtensions.headD "")

/-- The `ImageLoaderSettings.format` value after `TextureAtlasLoader::load`'s
settings closure ran: an explicit format overrides the default
extension-based auto-detection. -/
def appliedImageSettings (format : Option ImageFormat) : ImageFormatSetting :=
  match format with
  | some f => ImageFormatSetting.format f
  | none => ImageFormatSetting.fromExtension

/-- The pure tail of `TextureAtlasLoader::load` after the nested image load
succeeded: the `for (path, rect) in settings.textures` loop appending to
`paths` and `textures`, then assembling the layout with the loaded image's
actual size. -/
def loadAtlasFromImage (settings : LoaderSettings) (texture : Image) : TextureAtlasAsset :=
  let st := settings.textures.foldl
    (fun (st : TextureAtlasPaths × List URect) e => (st.1.add e.1, st.2 ++ [e.2]))
    (TextureAtlasPaths.mkDefault, [])
  { layout := { size := texture.size, textures := st.2 }
    texture := texture
    paths := st.1 }

/-- The external image loader environment: given the nested asset path and the
image-loader settings in force, returns the decoded image or fails. -/
abbrev ImageLoadEnv := AtlasPath → ImageFormatSetting → Option Image

/-- `TextureAtlasLoader::load` (Direct-Load pipeline): derive the internal
asset path, load the image through the external loader with the optional
format override, then build layout and path index verbatim from the settings. -/
def TextureAtlasLoader.load (env : ImageLoadEnv) (assetPath : AtlasPath)
    (settings : LoaderSettings) : Except LoaderError TextureAtlasAsset :=
  match env (internalAssetPath assetPath settings.format)
        (appliedImageSettings settings.format) with
  | none => .error .loadDirect
  | some texture => .ok (loadAtlasFromImage settings texture)

/-- Modelled from the spec: bevy's `TextureAtlasBuilderError`.  The spec (§4.1,
§7) requires a `PackingError` when no valid placement exists (size limits
exceeded) or when the source list is empty. -/
inductive TextureAtlasBuilderError where
  | emptyInput
  | notEnoughSpace
deriving DecidableEq, Repr

/-- Maximum canvas extent of the modelled packer (the size-limit constraint
the spec's `PackingError` refers to). -/
def atlasMax : Nat := 2048

/-- Modelled from the spec: the packing step of bevy's `TextureAtlasBuilder`
is not part of the provided sources.  Per the spec (§4.1 step 3) packing must
place one rect per source in source order, with zero overlap, bounded by a
documented size limit, deterministically in the ordered size sequence.  This
models it as a deterministic shelf packer: fill the current row left to
right, start a new row below when the current row is full, fail when the
size limit is exceeded.  State: cursor `(cx, cy)`, current row height `rowH`,
rects placed so far `acc`. -/
def shelfPlace : List UVec2 → Nat → Nat → Nat → List URect → Option (List URect)
  | [], _cx, _cy, _rowH, acc => some acc
  | sz :: rest, cx, cy, rowH, acc =>
    if cx + sz.x ≤ atlasMax ∧ cy + sz.y ≤ atlasMax then
      shelfPlace rest (cx + sz.x) cy (max rowH sz.y)
        (acc ++ [⟨⟨cx, cy⟩, ⟨cx + sz.x, cy + sz.y⟩⟩])
    else if sz.x ≤ atlasMax ∧ cy + rowH + sz.y ≤ atlasMax then
      shelfPlace rest sz.x (cy + rowH) sz.y
        (acc ++ [⟨⟨0, cy + rowH⟩, ⟨sz.x, cy + rowH + sz.y⟩⟩])
    else none

/-- The canvas size enclosing a list of placed rects: componentwise maximum
of the `max` corners. -/
def canvasOf (rects : List URect) : UVec2 :=
  ⟨rects.foldl (fun m r => max m r.max.x) 0,
   rects.foldl (fun m r => max m r.max.y) 0⟩

/-- Modelled from the spec: bevy's `TextureAtlasBuilder` accumulates the
added textures in order; only their pixel dimensions drive packing. -/
structure TextureAtlasBuilder where
  textures : List UVec2
deriving DecidableEq, Repr

instance : Inhabited TextureAtlasBuilder := ⟨⟨[]⟩⟩

/-- Modelled from the spec: `TextureAtlasBuilder::default()` holds no textures. -/
def TextureAtlasBuilder.mkDefault : TextureAtlasBuilder := ⟨[]⟩

/-- Modelled from the spec: `TextureAtlasBuilder::add_texture` appends one
source image (the `None` asset-id argument of the call site is dropped by the
builder's packing and is not modelled). -/
def TextureAtlasBuilder.add_texture (b : TextureAtlasBuilder) (img : Image) : TextureAtlasBuilder :=
  ⟨b.textures ++ [img.size]⟩

/-- Modelled from the spec: `TextureAtlasBuilder::build` packs the added
textures and returns the layout together with the composited canvas image
(pixel compositing is external; the canvas image carries the layout size).
Empty input is always an error, never a zero-size atlas (§4.1 step 3). -/
def TextureAtlasBuilder.build (b : TextureAtlasBuilder) :
    Except TextureAtlasBuilderError (TextureAtlasLayout × Image) :=
  match b.textures with
  | [] => .error .emptyInput
  | _ :: _ =>
    match shelfPlace b.textures 0 0 0 [] with
    | none => .error .notEnoughSpace
    | some rects =>
      let size := canvasOf rects
      .ok ({ size := size, textures := rects }, { size := size, data := [] })

/-- `BuildLoaderError` from loader.rs. -/
inductive BuildLoaderError where
  | io
  | ronSpannedError
  | loadDirect
  | textureAtlasBuilder (e : TextureAtlasBuilderError)
deriving DecidableEq, Repr

/-- `BuildLoaderConfig` from loader.rs: the ordered source path list parsed
from the `.atlas.ron` descriptor. -/
structure BuildLoaderConfig where
  textures : List AssetPath
deriving DecidableEq, Repr

/-- The external loader used by the build pipeline: one image per source path. -/
abbrev BuildLoadEnv := AssetPath → Option Image

/-- The sequential `for path in config.iter_paths()` resolution loop of
`TextureAtlasBuildLoader::load`: load each source in descriptor order,
aborting on the first failure. -/
def resolveImages (env : BuildLoadEnv) : List AssetPath → Except BuildLoaderError (List Image)
  | [] => .ok []
  | p :: rest =>
    match env p with
    | none => .error .loadDirect
    | some img =>
      match resolveImages env rest with
      | .ok imgs => .ok (img :: imgs)
      | .error e => .error e

/-- `TextureAtlasBuildLoader::load` (Build pipeline), after the descriptor has
been parsed: resolve every source image in order, add each `(path, texture)`
pair to the path index and the builder in lockstep, then build the atlas. -/
def TextureAtlasBuildLoader.load (env : BuildLoadEnv) (config : BuildLoaderConfig) :
    Except BuildLoaderError TextureAtlasAsset :=
  match resolveImages env config.textures with
  | .error e => .error e
  | .ok texture_assets =>
    let st := (config.textures.zip texture_assets).foldl
      (fun (st : TextureAtlasPaths × TextureAtlasBuilder) pt =>
        (st.1.add (some pt.1), st.2.add_texture pt.2))
      (TextureAtlasPaths.mkDefault, TextureAtlasBuilder.mkDefault)
    match st.2.build with
    | .error e => .error (.textureAtlasBuilder e)
    | .ok (layout, texture) =>
      .ok { layout := layout, texture := texture, paths := st.1 }

/-- `SaverError` from loader.rs. -/
inductive SaverError where
  | io
  | intoDynamicImage
  | invalidImageFormat (f : ImageFormat)
  | image
  | missingLayout
  | missingTexture
deriving DecidableEq, Repr

/-- `SaverSettings` from loader.rs: the target encoding format. -/
structure SaverSettings where
  format : ImageFormat
deriving DecidableEq, Repr

/-- `SaverSettings::default()` uses PNG. -/
def SaverSettings.mkDefault : SaverSettings := ⟨ImageFormat.png⟩

/-- The `SavedAsset` view the saver receives: the asset's path index is
always accessible, while the labeled `"layout"` and `"texture"` sub-assets
are fetched by label and may be absent (`get_labeled` returns an `Option`). -/
structure SavedAsset where
  paths : TextureAtlasPaths
  layout : Option TextureAtlasLayout
  texture : Option Image
deriving DecidableEq, Repr

/-- Modelled from the spec: the external image codec.  Encoding a pixel buffer
to the chosen format yields a byte stream; for the formats modelled here the
codec supports every conversion, so encoding is total. -/
def encodeImage (_format : ImageFormat) (img : Image) : List Nat :=
  img.size.x :: img.size.y :: img.data

/-- `TextureAtlasSaver::save` (Persist pipeline): fetch the `"layout"` and
`"texture"` sub-assets (failing with the corresponding missing-sub-asset
error before anything is written), encode the texture, write the encoded
bytes, and return the Direct-Load settings zipping the path index with the
layout's rects.  The second component is the writer's final contents. -/
def TextureAtlasSaver.save (asset : SavedAsset) (settings : SaverSettings) :
    Except SaverError LoaderSettings × List Nat :=
  match asset.layout with
  | none => (.error .missingLayout, [])
  | some layout =>
    match asset.texture with
    | none => (.error .missingTexture, [])
    | some texture =>
      let png_buf := encodeImage settings.format texture
      (.ok { format := some settings.format
             textures := asset.paths.path_indices.zip layout.textures },
       png_buf)

/-! ### Helper lemmas -/

theorem load_foldl_general (l : List (Option AssetPath × URect)) :
    ∀ (p0 : List (Option AssetPath)) (t0 : List URect),
      l.foldl (fun (st : TextureAtlasPaths × List URect) e => (st.1.add e.1, st.2 ++ [e.2]))
          (⟨p0⟩, t0)
        = (⟨p0 ++ l.map Prod.fst⟩, t0 ++ l.map Prod.snd) := by
  induction l with
  | nil => intro p0 t0; simp
  | cons e rest ih =>
    intro p0 t0
    simp only [List.foldl_cons, List.map_cons]
    show rest.foldl _ ((⟨p0 ++ [e.1]⟩ : TextureAtlasPaths), t0 ++ [e.2]) = _
    rw [ih]
    simp

theorem loadAtlasFromImage_eq (settings : LoaderSettings) (texture : Image) :
    loadAtlasFromImage settings texture =
      { layout := { size := texture.size, textures := settings.textures.map Prod.snd }
        texture := texture
        paths := ⟨settings.textures.map Prod.fst⟩ } := by
  unfold loadAtlasFromImage TextureAtlasPaths.mkDefault
  rw [load_foldl_general]
  simp

theorem build_foldl_general (l : List (AssetPath × Image)) :
    ∀ (p0 : List (Option AssetPath)) (b0 : List UVec2),
      l.foldl (fun (st : TextureAtlasPaths × TextureAtlasBuilder) pt =>
          (st.1.add (some pt.1), st.2.add_texture pt.2)) (⟨p0⟩, ⟨b0⟩)
        = (⟨p0 ++ l.map (fun pt => some pt.1)⟩, ⟨b0 ++ l.map (fun pt => pt.2.size)⟩) := by
  induction l with
  | nil => intro p0 b0; simp
  | cons pt rest ih =>
    intro p0 b0
    simp only [List.foldl_cons, List.map_cons]
    show rest.foldl _ ((⟨p0 ++ [some pt.1]⟩ : TextureAtlasPaths),
      (⟨b0 ++ [pt.2.size]⟩ : TextureAtlasBuilder)) = _
    rw [ih]
    simp

theorem resolveImages_ok_length (env : BuildLoadEnv) :
    ∀ (l : List AssetPath) (imgs : List Image),
      resolveImages env l = .ok imgs → imgs.length = l.length := by
  intro l
  induction l with
  | nil => intro imgs h; simp [resolveImages] at h; subst h; rfl
  | cons p rest ih =>
    intro imgs h
    unfold resolveImages at h
    cases henv : env p with
    | none => rw [henv] at h; exact absurd h (by simp)
    | some img =>
      rw [henv] at h
      cases hres : resolveImages env rest with
      | error e => rw [hres] at h; exact absurd h (by simp)
      | ok imgs' =>
        rw [hres] at h
        cases h
        simp [ih imgs' hres]

theorem overlaps_eq_false_of_separated {a b : URect}
    (h : b.max.x ≤ a.min.x ∨ a.max.x ≤ b.min.x ∨ b.max.y ≤ a.min.y ∨ a.max.y ≤ b.min.y) :
    URect.overlaps a b = false := by
  simp only [URect.overlaps, Bool.and_eq_false_iff, decide_eq_false_iff_not, not_lt]
  omega

theorem foldl_max_init (f : URect → Nat) :
    ∀ (l : List URect) (m : Nat), m ≤ l.foldl (fun acc r => max acc (f r)) m := by
  intro l
  induction l with
  | nil => intro m; simp
  | cons r rest ih =>
    intro m
    simp only [List.foldl_cons]
    exact le_trans (le_max_left m (f r)) (ih (max m (f r)))

theorem foldl_max_mem (f : URect → Nat) :
    ∀ (l : List URect) (m : Nat) (r : URect), r ∈ l →
      f r ≤ l.foldl (fun acc t => max acc (f t)) m := by
  intro l
  induction l with
  | nil => intro m r hr; exact absurd hr (by simp)
  | cons s rest ih =>
    intro m r hr
    simp only [List.foldl_cons]
    rcases List.mem_cons.mp hr with h | h
    · subst h
      exact le_trans (le_max_right m (f r)) (foldl_max_init f rest (max m (f r)))
    · exact ih (max m (f s)) r h

/-- Invariant of the shelf packer: starting from a cursor state whose already
placed rects are (a) bounded above by the current row's bottom, (b) either in
a finished row (fully above the cursor row) or in the current row left of the
cursor, and (c) well formed, every successful run yields pairwise
non-overlapping, well-formed rects, one per input size. -/
theorem shelfPlace_spec (sizes : List UVec2) :
    ∀ (cx cy rowH : Nat) (acc out : List URect),
      shelfPlace sizes cx cy rowH acc = some out →
      (∀ r ∈ acc, r.max.y ≤ cy + rowH ∧
        (r.max.y ≤ cy ∨ (cy ≤ r.min.y ∧ r.max.x ≤ cx)) ∧
        (r.min.x ≤ r.max.x ∧ r.min.y ≤ r.max.y)) →
      List.Pairwise (fun a b => URect.overlaps a b = false) acc →
      List.Pairwise (fun a b => URect.overlaps a b = false) out ∧
      (∀ r ∈ out, r.min.x ≤ r.max.x ∧ r.min.y ≤ r.max.y) ∧
      out.length = acc.length + sizes.length := by
  induction sizes with
  | nil =>
    intro cx cy rowH acc out h hinv hpw
    simp only [shelfPlace, Option.some.injEq] at h
    subst h
    exact ⟨hpw, fun r hr => (hinv r hr).2.2, by simp⟩
  | cons sz rest ih =>
    intro cx cy rowH acc out h hinv hpw
    simp only [shelfPlace] at h
    split at h
    · -- place in the current row at (cx, cy)
      rename_i h1
      have hinv' : ∀ r ∈ acc ++ [⟨⟨cx, cy⟩, ⟨cx + sz.x, cy + sz.y⟩⟩],
          r.max.y ≤ cy + max rowH sz.y ∧
          (r.max.y ≤ cy ∨ (cy ≤ r.min.y ∧ r.max.x ≤ cx + sz.x)) ∧
          (r.min.x ≤ r.max.x ∧ r.min.y ≤ r.max.y) := by
        intro r hr
        rcases List.mem_append.mp hr with hr | hr
        · obtain ⟨hA, hB, hWF⟩ := hinv r hr
          refine ⟨le_trans hA (Nat.add_le_add_left (le_max_left _ _) cy), ?_, hWF⟩
          rcases hB with hB | hB
          · exact Or.inl hB
          · exact Or.inr ⟨hB.1, le_trans hB.2 (Nat.le_add_right cx sz.x)⟩
        · rw [List.mem_singleton] at hr
          subst hr
          exact ⟨Nat.add_le_add_left (le_max_right _ _) cy,
            Or.inr ⟨le_refl cy, le_refl (cx + sz.x)⟩,
            Nat.le_add_right cx sz.x, Nat.le_add_right cy sz.y⟩
      have hpw' : List.Pairwise (fun a b => URect.overlaps a b = false)
          (acc ++ [⟨⟨cx, cy⟩, ⟨cx + sz.x, cy + sz.y⟩⟩]) := by
        rw [List.pairwise_append]
        refine ⟨hpw, List.pairwise_singleton _ _, ?_⟩
        intro a ha b hb
        rw [List.mem_singleton] at hb
        subst hb
        obtain ⟨_, hB, _⟩ := hinv a ha
        apply overlaps_eq_false_of_separated
        rcases hB with hB | hB
        · exact Or.inr (Or.inr (Or.inr hB))
        · exact Or.inr (Or.inl hB.2)
      obtain ⟨r1, r2, r3⟩ := ih (cx + sz.x) cy (max rowH sz.y) _ out h hinv' hpw'
      refine ⟨r1, r2, ?_⟩
      rw [List.length_append] at r3
      simp only [List.length_cons, List.length_nil] at r3 ⊢
      omega
    · -- start a new row at (0, cy + rowH)
      split at h
      · rename_i h1 h2
        have hinv' : ∀ r ∈ acc ++ [⟨⟨0, cy + rowH⟩, ⟨sz.x, cy + rowH + sz.y⟩⟩],
            r.max.y ≤ (cy + rowH) + sz.y ∧
            (r.max.y ≤ cy + rowH ∨ (cy + rowH ≤ r.min.y ∧ r.max.x ≤ sz.x)) ∧
            (r.min.x ≤ r.max.x ∧ r.min.y ≤ r.max.y) := by
          intro r hr
          rcases List.mem_append.mp hr with hr | hr
          · obtain ⟨hA, _, hWF⟩ := hinv r hr
            exact ⟨le_trans hA (Nat.le_add_right _ sz.y), Or.inl hA, hWF⟩
          · rw [List.mem_singleton] at hr
            subst hr
            exact ⟨le_refl _, Or.inr ⟨le_refl _, le_refl _⟩,
              Nat.zero_le _, Nat.le_add_right _ _⟩
        have hpw' : List.Pairwise (fun a b => URect.overlaps a b = false)
            (acc ++ [⟨⟨0, cy + rowH⟩, ⟨sz.x, cy + rowH + sz.y⟩⟩]) := by
          rw [List.pairwise_append]
          refine ⟨hpw, List.pairwise_singleton _ _, ?_⟩
          intro a ha b hb
          rw [List.mem_singleton] at hb
          subst hb
          obtain ⟨hA, _, _⟩ := hinv a ha
          exact overlaps_eq_false_of_separated (Or.inr (Or.inr (Or.inr hA)))
        obtain ⟨r1, r2, r3⟩ := ih sz.x (cy + rowH) sz.y _ out h hinv' hpw'
        refine ⟨r1, r2, ?_⟩
        rw [List.length_append] at r3
        simp only [List.length_cons, List.length_nil] at r3 ⊢
        omega
      · exact absurd h (by simp)

/-- Every well-formed rect of a list is contained in the canvas computed as
the componentwise maximum of the `max` corners. -/
theorem containedIn_canvasOf {rects : List URect} {r : URect} (hr : r ∈ rects)
    (hwf : r.min.x ≤ r.max.x ∧ r.min.y ≤ r.max.y) :
    r.containedIn (canvasOf rects) = true := by
  simp only [URect.containedIn, canvasOf, Bool.and_eq_true, decide_eq_true_eq]
  exact ⟨⟨⟨hwf.1, hwf.2⟩, foldl_max_mem (fun t => t.max.x) rects 0 r hr⟩,
    foldl_max_mem (fun t => t.max.y) rects 0 r hr⟩

/-- Inversion of a successful build: the resolved images, the packed rects,
and the shape of the produced asset. -/
theorem build_load_ok {env : BuildLoadEnv} {config : BuildLoaderConfig} {a : TextureAtlasAsset}
    (h : TextureAtlasBuildLoader.load env config = .ok a) :
    ∃ imgs rects,
      resolveImages env config.textures = .ok imgs ∧
      shelfPlace ((config.textures.zip imgs).map (fun pt => pt.2.size)) 0 0 0 [] = some rects ∧
      a.layout = { size := canvasOf rects, textures := rects } ∧
      a.texture = { size := canvasOf rects, data := [] } ∧
      a.paths = ⟨(config.textures.zip imgs).map (fun pt => some pt.1)⟩ := by
  unfold TextureAtlasBuildLoader.load at h
  cases hres : resolveImages env config.textures with
  | error e => rw [hres] at h; exact absurd h (by simp)
  | ok imgs =>
    rw [hres] at h
    refine ⟨imgs, ?_⟩
    dsimp only at h
    unfold TextureAtlasPaths.mkDefault TextureAtlasBuilder.mkDefault at h
    have hfold := build_foldl_general (config.textures.zip imgs) [] []
    simp only [List.nil_append] at hfold
    rw [hfold] at h
    dsimp only at h
    unfold TextureAtlasBuilder.build at h
    cases hsz : (config.textures.zip imgs).map (fun pt => pt.2.size) with
    | nil => rw [hsz] at h; exact absurd h (by simp)
    | cons s ss =>
      rw [hsz] at h
      cases hpack : shelfPlace (s :: ss) 0 0 0 [] with
      | none => rw [hpack] at h; exact absurd h (by simp)
      | some rects =>
        rw [hpack] at h
        simp only [Except.ok.injEq] at h
        subst h
        exact ⟨rects, rfl, rfl, rfl, rfl, rfl⟩

/-- Inversion of a successful direct load: the image the environment returned
and the shape of the produced asset. -/
theorem direct_load_ok {env : ImageLoadEnv} {p : AtlasPath} {settings : LoaderSettings}
    {a : TextureAtlasAsset} (h : TextureAtlasLoader.load env p settings = .ok a) :
    ∃ texture,
      env (internalAssetPath p settings.format) (appliedImageSettings settings.format)
        = some texture ∧
      a = loadAtlasFromImage settings texture := by
  unfold TextureAtlasLoader.load at h
  cases henv : env (internalAssetPath p settings.format) (appliedImageSettings settings.format) with
  | none => rw [henv] at h; exact absurd h (by simp)
  | some texture =>
    rw [henv] at h
    simp only [Except.ok.injEq] at h
    exact ⟨texture, rfl, h.symm⟩

theorem map_none_eq_replicate {α β : Type} (l : List α) :
    l.map (fun _ => (none : Option β)) = List.replicate l.length none := by
  induction l with
  | nil => rfl
  | cons x xs ih => simp [ih, List.replicate_succ]

/-! ### Claim theorems -/

/-- C5: for every Direct-Load settings value and every successfully loaded
image, the produced asset's rects are verbatim the rect components of
`settings.textures` in order, its path index is verbatim the optional
source-identifier components in order, and its `canvas_size` is the loaded
image's actual pixel dimensions. -/
theorem direct_load_verbatim (env : ImageLoadEnv) (p : AtlasPath)
    (settings : LoaderSettings) (a : TextureAtlasAsset)
    (h : TextureAtlasLoader.load env p settings = .ok a) :
    a.layout.textures = settings.textures.map Prod.snd ∧
    a.paths.path_indices = settings.textures.map Prod.fst ∧
    ∃ texture,
      env (internalAssetPath p settings.format) (appliedImageSettings settings.format)
        = some texture ∧ a.layout.size = texture.size := by
  obtain ⟨texture, henv, ha⟩ := direct_load_ok h
  subst ha
  rw [loadAtlasFromImage_eq]
  exact ⟨rfl, rfl, texture, henv, rfl⟩

/-- Witness for C5 at a concrete two-entry settings value. -/
theorem direct_load_verbatim_witness :
    ({ layout := { size := ⟨8, 8⟩
                   textures := [⟨⟨0, 0⟩, ⟨4, 4⟩⟩, ⟨⟨4, 0⟩, ⟨8, 4⟩⟩] }
       texture := { size := ⟨8, 8⟩, data := [1, 2] }
       paths := ⟨[some "a", none]⟩ } : TextureAtlasAsset).layout.textures
        = [⟨⟨0, 0⟩, ⟨4, 4⟩⟩, ⟨⟨4, 0⟩, ⟨8, 4⟩⟩] ∧
    ({ layout := { size := ⟨8, 8⟩
                   textures := [⟨⟨0, 0⟩, ⟨4, 4⟩⟩, ⟨⟨4, 0⟩, ⟨8, 4⟩⟩] }
       texture := { size := ⟨8, 8⟩, data := [1, 2] }
       paths := ⟨[some "a", none]⟩ } : TextureAtlasAsset).paths.path_indices
        = [some "a", none] ∧
    ∃ texture,
      (fun (_ : AtlasPath) (_ : ImageFormatSetting) =>
          some ({ size := ⟨8, 8⟩, data := [1, 2] } : Image))
        (internalAssetPath ⟨"atlas", "ron"⟩ (some ImageFormat.png))
        (appliedImageSettings (some ImageFormat.png)) = some texture ∧
      ({ layout := { size := ⟨8, 8⟩
                     textures := [⟨⟨0, 0⟩, ⟨4, 4⟩⟩, ⟨⟨4, 0⟩, ⟨8, 4⟩⟩] }
         texture := { size := ⟨8, 8⟩, data := [1, 2] }
         paths := ⟨[some "a", none]⟩ } : TextureAtlasAsset).layout.size = texture.size :=
  direct_load_verbatim
    (fun _ _ => some { size := ⟨8, 8⟩, data := [1, 2] }) ⟨"atlas", "ron"⟩
    { format := some ImageFormat.png
      textures := [(some "a", ⟨⟨0, 0⟩, ⟨4, 4⟩⟩), (none, ⟨⟨4, 0⟩, ⟨8, 4⟩⟩)] }
    { layout := { size := ⟨8, 8⟩
                  textures := [⟨⟨0, 0⟩, ⟨4, 4⟩⟩, ⟨⟨4, 0⟩, ⟨8, 4⟩⟩] }
      texture := { size := ⟨8, 8⟩, data := [1, 2] }
      paths := ⟨[some "a", none]⟩ }
    rfl

/-- C6: for every asset produced by the Build pipeline or the Direct-Load
pipeline, the path index and the layout's rect list have the same length. -/
theorem path_index_length_invariant :
    (∀ (env : ImageLoadEnv) (p : AtlasPath) (settings : LoaderSettings) (a : TextureAtlasAsset),
        TextureAtlasLoader.load env p settings = .ok a →
        a.paths.path_indices.length = a.layout.textures.length) ∧
    (∀ (env : BuildLoadEnv) (config : BuildLoaderConfig) (a : TextureAtlasAsset),
        TextureAtlasBuildLoader.load env config = .ok a →
        a.paths.path_indices.length = a.layout.textures.length) := by
  constructor
  · intro env p settings a h
    obtain ⟨texture, _, ha⟩ := direct_load_ok h
    subst ha
    rw [loadAtlasFromImage_eq]
    simp
  · intro env config a h
    obtain ⟨imgs, rects, _, hpack, hlay, _, hpaths⟩ := build_load_ok h
    have hlen := (shelfPlace_spec _ 0 0 0 [] rects hpack (by simp) List.Pairwise.nil).2.2
    rw [hlay, hpaths]
    simp only [List.length_nil, List.length_map, Nat.zero_add] at hlen
    simp only [List.length_map]
    omega

/-- Witness for C6 at a concrete direct load. -/
theorem path_index_length_invariant_witness :
    ({ layout := { size := ⟨4, 4⟩, textures := [⟨⟨0, 0⟩, ⟨4, 4⟩⟩] }
       texture := { size := ⟨4, 4⟩, data := [] }
       paths := ⟨[some "s"]⟩ } : TextureAtlasAsset).paths.path_indices.length
      = ({ layout := { size := ⟨4, 4⟩, textures := [⟨⟨0, 0⟩, ⟨4, 4⟩⟩] }
           texture := { size := ⟨4, 4⟩, data := [] }
           paths := ⟨[some "s"]⟩ } : TextureAtlasAsset).layout.textures.length :=
  path_index_length_invariant.1
    (fun _ _ => some { size := ⟨4, 4⟩, data := [] }) ⟨"a", "atlas"⟩
    { format := some ImageFormat.png, textures := [(some "s", ⟨⟨0, 0⟩, ⟨4, 4⟩⟩)] }
    { layout := { size := ⟨4, 4⟩, textures := [⟨⟨0, 0⟩, ⟨4, 4⟩⟩] }
      texture := { size := ⟨4, 4⟩, data := [] }
      paths := ⟨[some "s"]⟩ }
    rfl

/-- C2: for every non-empty source list of images with positive dimensions,
a successful build yields pairwise non-overlapping rects, each fully
contained in the produced canvas size. -/
theorem build_rects_nonoverlapping_contained (env : BuildLoadEnv) (config : BuildLoaderConfig)
    (a : TextureAtlasAsset)
    (_hne : config.textures ≠ [])
    (_hpos : ∀ p img, env p = some img → 0 < img.size.x ∧ 0 < img.size.y)
    (h : TextureAtlasBuildLoader.load env config = .ok a) :
    List.Pairwise (fun r s => URect.overlaps r s = false) a.layout.textures ∧
    ∀ r ∈ a.layout.textures, r.containedIn a.layout.size = true := by
  obtain ⟨imgs, rects, _, hpack, hlay, _, _⟩ := build_load_ok h
  obtain ⟨hno, hwf, _⟩ := shelfPlace_spec _ 0 0 0 [] rects hpack (by simp) List.Pairwise.nil
  rw [hlay]
  exact ⟨hno, fun r hr => containedIn_canvasOf hr (hwf r hr)⟩

/-- Witness for C2: building from two 4×6 sources. -/
theorem build_rects_nonoverlapping_contained_witness :
    List.Pairwise (fun r s => URect.overlaps r s = false)
      ({ layout := { size := ⟨8, 6⟩, textures := [⟨⟨0, 0⟩, ⟨4, 6⟩⟩, ⟨⟨4, 0⟩, ⟨8, 6⟩⟩] }
         texture := { size := ⟨8, 6⟩, data := [] }
         paths := ⟨[some "a", some "b"]⟩ } : TextureAtlasAsset).layout.textures ∧
    ∀ r ∈ ({ layout := { size := ⟨8, 6⟩, textures := [⟨⟨0, 0⟩, ⟨4, 6⟩⟩, ⟨⟨4, 0⟩, ⟨8, 6⟩⟩] }
             texture := { size := ⟨8, 6⟩, data := [] }
             paths := ⟨[some "a", some "b"]⟩ } : TextureAtlasAsset).layout.textures,
      r.containedIn ({ layout := { size := ⟨8, 6⟩
                                   textures := [⟨⟨0, 0⟩, ⟨4, 6⟩⟩, ⟨⟨4, 0⟩, ⟨8, 6⟩⟩] }
                       texture := { size := ⟨8, 6⟩, data := [] }
                       paths := ⟨[some "a", some "b"]⟩ } : TextureAtlasAsset).layout.size
        = true :=
  build_rects_nonoverlapping_contained
    (fun _ => some { size := ⟨4, 6⟩, data := [] }) ⟨["a", "b"]⟩
    { layout := { size := ⟨8, 6⟩, textures := [⟨⟨0, 0⟩, ⟨4, 6⟩⟩, ⟨⟨4, 0⟩, ⟨8, 6⟩⟩] }
      texture := { size := ⟨8, 6⟩, data := [] }
      paths := ⟨[some "a", some "b"]⟩ }
    (by simp)
    (by intro p img himg; injection himg with he; subst he; exact ⟨by decide, by decide⟩)
    rfl

/-- C3: an empty source list makes the Build pipeline fail with the builder's
packing error; no atlas (in particular no zero-size atlas) is produced. -/
theorem build_empty_fails (env : BuildLoadEnv) :
    TextureAtlasBuildLoader.load env ⟨[]⟩ =
      .error (BuildLoaderError.textureAtlasBuilder TextureAtlasBuilderError.emptyInput) := rfl

/-- C4: packing is deterministic — two builds over the same ordered size
sequence produce identical rects and identical canvas size. -/
theorem packing_deterministic (sizes : List UVec2) (b1 b2 : TextureAtlasBuilder)
    (h1 : b1.textures = sizes) (h2 : b2.textures = sizes)
    (layout1 layout2 : TextureAtlasLayout) (img1 img2 : Image)
    (hb1 : b1.build = .ok (layout1, img1)) (hb2 : b2.build = .ok (layout2, img2)) :
    layout1.textures = layout2.textures ∧ layout1.size = layout2.size := by
  obtain ⟨t1⟩ := b1
  obtain ⟨t2⟩ := b2
  dsimp only at h1 h2
  subst h1
  subst h2
  rw [hb1] at hb2
  simp only [Except.ok.injEq, Prod.mk.injEq] at hb2
  rw [hb2.1]
  exact ⟨rfl, rfl⟩

/-- Witness for C4 at the one-element size sequence (2, 3). -/
theorem packing_deterministic_witness :
    ({ size := ⟨2, 3⟩, textures := [⟨⟨0, 0⟩, ⟨2, 3⟩⟩] } : TextureAtlasLayout).textures
      = ({ size := ⟨2, 3⟩, textures := [⟨⟨0, 0⟩, ⟨2, 3⟩⟩] } : TextureAtlasLayout).textures ∧
    ({ size := ⟨2, 3⟩, textures := [⟨⟨0, 0⟩, ⟨2, 3⟩⟩] } : TextureAtlasLayout).size
      = ({ size := ⟨2, 3⟩, textures := [⟨⟨0, 0⟩, ⟨2, 3⟩⟩] } : TextureAtlasLayout).size :=
  packing_deterministic [⟨2, 3⟩] ⟨[⟨2, 3⟩]⟩ ⟨[⟨2, 3⟩]⟩ rfl rfl
    { size := ⟨2, 3⟩, textures := [⟨⟨0, 0⟩, ⟨2, 3⟩⟩] }
    { size := ⟨2, 3⟩, textures := [⟨⟨0, 0⟩, ⟨2, 3⟩⟩] }
    { size := ⟨2, 3⟩, data := [] } { size := ⟨2, 3⟩, data := [] } rfl rfl

/-- C7: if the `"layout"` or the `"texture"` labeled sub-asset is absent, the
saver fails with the corresponding missing-sub-asset error and writes no
bytes to the output writer. -/
theorem save_missing_subasset (paths : TextureAtlasPaths) (layout : TextureAtlasLayout)
    (texture : Option Image) (settings : SaverSettings) :
    TextureAtlasSaver.save ⟨paths, none, texture⟩ settings
      = (.error SaverError.missingLayout, []) ∧
    TextureAtlasSaver.save ⟨paths, some layout, none⟩ settings
      = (.error SaverError.missingTexture, []) :=
  ⟨rfl, rfl⟩

/-- C8: every successful save returns settings whose `textures` are the
positional zip of the asset's path index with the layout's rects, and whose
`format` is `Some` of the encoding format from the saver settings. -/
theorem save_settings_zip (asset : SavedAsset) (settings : SaverSettings)
    (ls : LoaderSettings) (written : List Nat)
    (h : TextureAtlasSaver.save asset settings = (.ok ls, written)) :
    ∃ layout, asset.layout = some layout ∧
      ls.format = some settings.format ∧
      ls.textures = asset.paths.path_indices.zip layout.textures := by
  unfold TextureAtlasSaver.save at h
  cases hl : asset.layout with
  | none => rw [hl] at h; exact absurd h (by simp)
  | some layout =>
    rw [hl] at h
    cases ht : asset.texture with
    | none => rw [ht] at h; exact absurd h (by simp)
    | some texture =>
      rw [ht] at h
      dsimp only at h
      simp only [Prod.mk.injEq, Except.ok.injEq] at h
      exact ⟨layout, rfl, by rw [← h.1], by rw [← h.1]⟩

/-- Witness for C8 at a concrete one-entry asset saved as PNG. -/
theorem save_settings_zip_witness :
    ∃ layout,
      ({ paths := ⟨[some "a"]⟩
         layout := some { size := ⟨4, 4⟩, textures := [⟨⟨0, 0⟩, ⟨4, 4⟩⟩] }
         texture := some { size := ⟨4, 4⟩, data := [7] } } : SavedAsset).layout
        = some layout ∧
      ({ format := some ImageFormat.png
         textures := [(some "a", ⟨⟨0, 0⟩, ⟨4, 4⟩⟩)] } : LoaderSettings).format
        = some (SaverSettings.mk ImageFormat.png).format ∧
      ({ format := some ImageFormat.png
         textures := [(some "a", ⟨⟨0, 0⟩, ⟨4, 4⟩⟩)] } : LoaderSettings).textures
        = ({ paths := ⟨[some "a"]⟩
             layout := some { size := ⟨4, 4⟩, textures := [⟨⟨0, 0⟩, ⟨4, 4⟩⟩] }
             texture := some { size := ⟨4, 4⟩, data := [7] } } :
            SavedAsset).paths.path_indices.zip layout.textures :=
  save_settings_zip
    { paths := ⟨[some "a"]⟩
      layout := some { size := ⟨4, 4⟩, textures := [⟨⟨0, 0⟩, ⟨4, 4⟩⟩] }
      texture := some { size := ⟨4, 4⟩, data := [7] } }
    ⟨ImageFormat.png⟩
    { format := some ImageFormat.png, textures := [(some "a", ⟨⟨0, 0⟩, ⟨4, 4⟩⟩)] }
    [4, 4, 7] rfl

/-- C9: the Direct-Load pipeline consults the external loader exactly at the
atlas path with its file extension substituted by the extension expected for
the requested format (`"bin"` when no format is requested), and an explicit
format is applied as an override to the nested image load while `None`
leaves extension-based auto-detection in force. -/
theorem direct_load_extension_and_override (env : ImageLoadEnv) (p : AtlasPath)
    (settings : LoaderSettings) (f : ImageFormat) :
    TextureAtlasLoader.load env p settings =
      (match env (internalAssetPath p settings.format)
             (appliedImageSettings settings.format) with
       | none => Except.error LoaderError.loadDirect
       | some texture => Except.ok (loadAtlasFromImage settings texture)) ∧
    internalAssetPath p (some f) = p.with_extension (f.toFileExtensions.headD "") ∧
    internalAssetPath p none = p.with_extension "bin" ∧
    appliedImageSettings (some f) = ImageFormatSetting.format f ∧
    appliedImageSettings none = ImageFormatSetting.fromExtension :=
  ⟨rfl, rfl, rfl, rfl, rfl⟩

/-- C10: converting a layout to loader settings drops all source identity —
`format` is `None`, the rects are kept in order each paired with `None`, and
an asset loaded from such settings has a path index of only `None` entries. -/
theorem from_layout_drops_source_identity (layout : TextureAtlasLayout) :
    LoaderSettings.fromLayout layout =
      { format := none, textures := layout.textures.map fun rect => (none, rect) } ∧
    ∀ (env : ImageLoadEnv) (p : AtlasPath) (a : TextureAtlasAsset),
      TextureAtlasLoader.load env p (LoaderSettings.fromLayout layout) = .ok a →
      a.layout.textures = layout.textures ∧
      a.paths.path_indices = List.replicate layout.textures.length none := by
  refine ⟨rfl, ?_⟩
  intro env p a h
  obtain ⟨texture, _, ha⟩ := direct_load_ok h
  subst ha
  rw [loadAtlasFromImage_eq]
  constructor
  · show (layout.textures.map fun rect => ((none : Option AssetPath), rect)).map Prod.snd
      = layout.textures
    rw [List.map_map]
    simp
  · show (layout.textures.map fun rect => ((none : Option AssetPath), rect)).map Prod.fst
      = List.replicate layout.textures.length none
    rw [List.map_map]
    exact map_none_eq_replicate layout.textures

/-- Witness for C10 at a concrete one-rect layout. -/
theorem from_layout_drops_source_identity_witness :
    ({ layout := { size := ⟨4, 4⟩, textures := [⟨⟨0, 0⟩, ⟨2, 2⟩⟩] }
       texture := { size := ⟨4, 4⟩, data := [] }
       paths := ⟨[none]⟩ } : TextureAtlasAsset).layout.textures
      = ({ size := ⟨4, 4⟩, textures := [⟨⟨0, 0⟩, ⟨2, 2⟩⟩] } : TextureAtlasLayout).textures ∧
    ({ layout := { size := ⟨4, 4⟩, textures := [⟨⟨0, 0⟩, ⟨2, 2⟩⟩] }
       texture := { size := ⟨4, 4⟩, data := [] }
       paths := ⟨[none]⟩ } : TextureAtlasAsset).paths.path_indices
      = List.replicate 1 none :=
  (from_layout_drops_source_identity { size := ⟨4, 4⟩, textures := [⟨⟨0, 0⟩, ⟨2, 2⟩⟩] }).2
    (fun _ _ => some { size := ⟨4, 4⟩, data := [] }) ⟨"a", "png"⟩
    { layout := { size := ⟨4, 4⟩, textures := [⟨⟨0, 0⟩, ⟨2, 2⟩⟩] }
      texture := { size := ⟨4, 4⟩, data := [] }
      paths := ⟨[none]⟩ }
    rfl

/-- C1: saving an atlas asset and reloading from the emitted settings and
encoded image reproduces the original rects, canvas size and path index,
assuming the encoded image decodes to the original pixel dimensions (and the
asset satisfies the data-model invariant that path index and rects have
equal length). -/
theorem save_load_round_trip (paths : List (Option AssetPath)) (rects : List URect)
    (size : UVec2) (img reimg : Image) (fmt : ImageFormat)
    (env : ImageLoadEnv) (p : AtlasPath)
    (hlen : paths.length = rects.length)
    (hsize : reimg.size = size)
    (henv : env (internalAssetPath p (some fmt)) (appliedImageSettings (some fmt))
      = some reimg) :
    ∃ ls : LoaderSettings,
      (TextureAtlasSaver.save ⟨⟨paths⟩, some ⟨size, rects⟩, some img⟩ ⟨fmt⟩).1 = .ok ls ∧
      ∃ a : TextureAtlasAsset,
        TextureAtlasLoader.load env p ls = .ok a ∧
        a.layout.textures = rects ∧
        a.layout.size = size ∧
        a.paths.path_indices = paths := by
  refine ⟨{ format := some fmt, textures := paths.zip rects }, rfl, ?_⟩
  refine ⟨loadAtlasFromImage { format := some fmt, textures := paths.zip rects } reimg,
    ?_, ?_, ?_, ?_⟩
  · unfold TextureAtlasLoader.load
    dsimp only
    rw [henv]
  · rw [loadAtlasFromImage_eq]
    exact List.map_snd_zip paths rects (le_of_eq hlen.symm)
  · rw [loadAtlasFromImage_eq]
    exact hsize
  · rw [loadAtlasFromImage_eq]
    exact List.map_fst_zip paths rects (le_of_eq hlen)

/-- Witness for C1: a one-texture asset saved as PNG and reloaded. -/
theorem save_load_round_trip_witness :
    ∃ ls : LoaderSettings,
      (TextureAtlasSaver.save
          ⟨⟨[some "a"]⟩, some ⟨⟨4, 4⟩, [⟨⟨0, 0⟩, ⟨4, 4⟩⟩]⟩,
            some { size := ⟨4, 4⟩, data := [9] }⟩ ⟨ImageFormat.png⟩).1 = .ok ls ∧
      ∃ a : TextureAtlasAsset,
        TextureAtlasLoader.load (fun _ _ => some { size := ⟨4, 4⟩, data := [9] })
            ⟨"x", "atlas"⟩ ls = .ok a ∧
        a.layout.textures = [⟨⟨0, 0⟩, ⟨4, 4⟩⟩] ∧
        a.layout.size = ⟨4, 4⟩ ∧
        a.paths.path_indices = [some "a"] :=
  save_load_round_trip [some "a"] [⟨⟨0, 0⟩, ⟨4, 4⟩⟩] ⟨4, 4⟩
    { size := ⟨4, 4⟩, data := [9] } { size := ⟨4, 4⟩, data := [9] }
    ImageFormat.png (fun _ _ => some { size := ⟨4, 4⟩, data := [9] }) ⟨"x", "atlas"⟩
    rfl rfl rfl
